import Mathlib

/-!
Verification development for `jpg_to_webm` (`src/main.rs`).

The program is embedded shallowly:
* a filesystem path is its list of components (`Path`);
* the IEEE double used for timestamps and the frame rate is idealised as an
  exact rational extended with infinities and NaN (`F64`); the only float
  operations the program performs (subtraction, sum, division, the reciprocal
  `1.0 / avg`) are modelled exactly, with `1.0 / 0.0 = +inf` as in IEEE;
* the ambient filesystem and the subprocess launcher are a record of fallible
  functions (`World`); fallible Rust calls return `Except Unit`;
* observable behaviour (encoder invocations, stdout / stderr notices) is a log
  of `Event`s returned next to the `Except` outcome, so that behaviour before
  an escalated failure stays observable.
-/

namespace JpgToWebm

/-- A filesystem path, modelled as its list of components. -/
abbrev Path := List String

/-- Textual rendering of a path, components joined by `/`. -/
def renderPath : Path → String
  | [] => ""
  | [s] => s
  | s :: rest => s ++ "/" ++ renderPath rest

/-- Rust `Path::file_name`: the final component. -/
def fileName (p : Path) : Option String := p.getLast?

/-- Rust `Path::extension` on a file name `s`: the portion after the last `.`,
`none` when there is no `.` or when the only `.` is the leading character. -/
def rustExtension (s : String) : Option String :=
  if s.data.contains '.' then
    let ext := (s.data.reverse.takeWhile (fun c => c ≠ '.')).reverse
    if s.data.length = ext.length + 1 then none else some (String.mk ext)
  else none

/-- Rust `Path::extension` of a full path: the extension of its file name. -/
def pathExtension (p : Path) : Option String := (fileName p).bind rustExtension

/-- An IEEE double, idealised: an exact rational, an infinity, or NaN. -/
inductive F64 where
  | fin : ℚ → F64
  | posInf : F64
  | negInf : F64
  | nan : F64
deriving DecidableEq, Repr

/-- The reciprocal `1.0 / q` of a finite double: `+inf` at (positive) zero,
exact otherwise. This is the one division `calculate_framerate` performs. -/
def recipF (q : ℚ) : F64 := if q = 0 then F64.posInf else F64.fin (1 / q)

/-- Rendering of the frame rate, as `f64::to_string` renders it: an integral
value prints without a fractional part (`24.0` prints as `"24"`). -/
def showRate : F64 → String
  | .fin q => if q.den = 1 then toString q.num else toString q.num ++ "/" ++ toString q.den
  | .posInf => "inf"
  | .negInf => "-inf"
  | .nan => "NaN"

/-- Rust `fs::Metadata`, restricted to what the program reads: creation and
modification time. A `SystemTime` is modelled as signed rational seconds
relative to the Unix epoch (negative = before the epoch). -/
structure Metadata where
  created : Except Unit ℚ
  modified : Except Unit ℚ

/-- `get_file_timestamp`: `metadata.created().or_else(|_| metadata.modified()).ok()`. -/
def get_file_timestamp (m : Metadata) : Option ℚ :=
  match m.created with
  | .ok t => some t
  | .error _ => m.modified.toOption

/-- One frame's timestamp in seconds, as `calculate_framerate` obtains it:
`fs::metadata(p).ok()?`, then `get_file_timestamp(..)?`, then
`duration_since(UNIX_EPOCH).ok()?.as_secs_f64()` — the last step fails
exactly when the time point lies before the epoch. -/
def resolvedSecs (metaOf : Path → Except Unit Metadata) (p : Path) : Option ℚ := do
  let m ← (metaOf p).toOption
  let t ← get_file_timestamp m
  if t < 0 then none else some t

/-- The loop of `calculate_framerate`: for each consecutive pair, the signed
delta (current minus previous); any failed lookup aborts the whole loop. -/
def timeDiffs (metaOf : Path → Except Unit Metadata) : List Path → Option (List ℚ)
  | p :: q :: rest => do
    let tp ← resolvedSecs metaOf p
    let tq ← resolvedSecs metaOf q
    let ds ← timeDiffs metaOf (q :: rest)
    pure ((tq - tp) :: ds)
  | _ => pure []

/-- `calculate_framerate`: `None` below two files; otherwise the reciprocal of
the arithmetic mean of the consecutive timestamp deltas. -/
def calculate_framerate (metaOf : Path → Except Unit Metadata)
    (image_files : List Path) : Option F64 :=
  if image_files.length < 2 then none
  else do
    let ds ← timeDiffs metaOf image_files
    let avg := ds.sum / (ds.length : ℚ)
    pure (recipF avg)

/-- Consecutive deltas of a pure list of timestamps (specification side,
compared against the effectful `timeDiffs`). -/
def consecDeltas : List ℚ → List ℚ
  | a :: b :: rest => (b - a) :: consecDeltas (b :: rest)
  | _ => []

/-- Code-point ranges (inclusive) of the Unicode general categories Nd, Nl
and No: the complete table for Unicode 15.0/15.1, the character data shipped
by the Rust toolchains of this program's era for `char::is_numeric`. -/
def numericRanges : List (Nat × Nat) :=
  [(0x30, 0x39), (0xB2, 0xB3), (0xB9, 0xB9), (0xBC, 0xBE), (0x660, 0x669), (0x6F0, 0x6F9),
  (0x7C0, 0x7C9), (0x966, 0x96F), (0x9E6, 0x9EF), (0x9F4, 0x9F9), (0xA66, 0xA6F),
  (0xAE6, 0xAEF), (0xB66, 0xB6F), (0xB72, 0xB77), (0xBE6, 0xBF2), (0xC66, 0xC6F),
  (0xC78, 0xC7E), (0xCE6, 0xCEF), (0xD58, 0xD5E), (0xD66, 0xD78), (0xDE6, 0xDEF),
  (0xE50, 0xE59), (0xED0, 0xED9), (0xF20, 0xF33), (0x1040, 0x1049), (0x1090, 0x1099),
  (0x1369, 0x137C), (0x16EE, 0x16F0), (0x17E0, 0x17E9), (0x17F0, 0x17F9), (0x1810, 0x1819),
  (0x1946, 0x194F), (0x19D0, 0x19DA), (0x1A80, 0x1A89), (0x1A90, 0x1A99), (0x1B50, 0x1B59),
  (0x1BB0, 0x1BB9), (0x1C40, 0x1C49), (0x1C50, 0x1C59), (0x2070, 0x2070), (0x2074, 0x2079),
  (0x2080, 0x2089), (0x2150, 0x2182), (0x2185, 0x2189), (0x2460, 0x249B), (0x24EA, 0x24FF),
  (0x2776, 0x2793), (0x2CFD, 0x2CFD), (0x3007, 0x3007), (0x3021, 0x3029), (0x3038, 0x303A),
  (0x3192, 0x3195), (0x3220, 0x3229), (0x3248, 0x324F), (0x3251, 0x325F), (0x3280, 0x3289),
  (0x32B1, 0x32BF), (0xA620, 0xA629), (0xA6E6, 0xA6EF), (0xA830, 0xA835), (0xA8D0, 0xA8D9),
  (0xA900, 0xA909), (0xA9D0, 0xA9D9), (0xA9F0, 0xA9F9), (0xAA50, 0xAA59), (0xABF0, 0xABF9),
  (0xFF10, 0xFF19), (0x10107, 0x10133), (0x10140, 0x10178), (0x1018A, 0x1018B),
  (0x102E1, 0x102FB), (0x10320, 0x10323), (0x10341, 0x10341), (0x1034A, 0x1034A),
  (0x103D1, 0x103D5), (0x104A0, 0x104A9), (0x10858, 0x1085F), (0x10879, 0x1087F),
  (0x108A7, 0x108AF), (0x108FB, 0x108FF), (0x10916, 0x1091B), (0x109BC, 0x109BD),
  (0x109C0, 0x109CF), (0x109D2, 0x109FF), (0x10A40, 0x10A48), (0x10A7D, 0x10A7E),
  (0x10A9D, 0x10A9F), (0x10AEB, 0x10AEF), (0x10B58, 0x10B5F), (0x10B78, 0x10B7F),
  (0x10BA9, 0x10BAF), (0x10CFA, 0x10CFF), (0x10D30, 0x10D39), (0x10E60, 0x10E7E),
  (0x10F1D, 0x10F26), (0x10F51, 0x10F54), (0x10FC5, 0x10FCB), (0x11052, 0x1106F),
  (0x110F0, 0x110F9), (0x11136, 0x1113F), (0x111D0, 0x111D9), (0x111E1, 0x111F4),
  (0x112F0, 0x112F9), (0x11450, 0x11459), (0x114D0, 0x114D9), (0x11650, 0x11659),
  (0x116C0, 0x116C9), (0x11730, 0x1173B), (0x118E0, 0x118F2), (0x11950, 0x11959),
  (0x11C50, 0x11C6C), (0x11D50, 0x11D59), (0x11DA0, 0x11DA9), (0x11F50, 0x11F59),
  (0x11FC0, 0x11FD4), (0x12400, 0x1246E), (0x16A60, 0x16A69), (0x16AC0, 0x16AC9),
  (0x16B50, 0x16B59), (0x16B5B, 0x16B61), (0x16E80, 0x16E96), (0x1D2E0, 0x1D2F3),
  (0x1D360, 0x1D378), (0x1D7CE, 0x1D7FF), (0x1E140, 0x1E149), (0x1E2F0, 0x1E2F9),
  (0x1E4F0, 0x1E4F9), (0x1E8C7, 0x1E8CF), (0x1E950, 0x1E959), (0x1EC71, 0x1ECAB),
  (0x1ECAD, 0x1ECAF), (0x1ECB1, 0x1ECB4), (0x1ED01, 0x1ED2D), (0x1ED2F, 0x1ED3D),
  (0x1F100, 0x1F10C), (0x1FBF0, 0x1FBF9)]

/-- Rust `char::is_numeric`: true exactly when the character's general
category is Nd, Nl or No, that is, when its code point lies in one of the
`numericRanges`. -/
def charIsNumeric (c : Char) : Bool :=
  numericRanges.any (fun r => r.1 ≤ c.toNat && c.toNat ≤ r.2)

/-- The ambient filesystem and process launcher. `readDir` yields the entry
NAMES of a directory (an `Except` per entry, as Rust's iterator does);
`runFfmpeg` maps an argument list to a launch failure or the exit status's
`success()` bit. -/
structure World where
  readDir : Path → Except Unit (List (Except Unit String))
  metaOf : Path → Except Unit Metadata
  createDirAll : Path → Except Unit Unit
  isDir : Path → Bool
  runFfmpeg : List String → Except Unit Bool

/-- Observable behaviour: an encoder invocation with its argument list, a
stdout notice, or a stderr notice. -/
inductive Event where
  | invoke : List String → Event
  | stdout : String → Event
  | stderr : String → Event
deriving DecidableEq, Repr

/-- The argument list of an invocation event. -/
def Event.invokeArgs : Event → Option (List String)
  | .invoke args => some args
  | _ => none

/-- `entry.ok().map(|e| e.path())`: failed entries are silently dropped, the
rest become `dir/name` paths. -/
def entryPaths (dir : Path) (entries : List (Except Unit String)) : List Path :=
  (entries.filterMap Except.toOption).map (fun n => dir ++ [n])

/-- `.filter(|path| path.extension().and_then(|e| e.to_str()) == Some("jpg"))`. -/
def jpgFilter (ps : List Path) : List Path :=
  ps.filter (fun p => pathExtension p == some "jpg")

/-- Lexicographic comparison of paths by components, `PathBuf`'s order. -/
def pathLe : Path → Path → Bool
  | [], _ => true
  | _ :: _, [] => false
  | a :: as, b :: bs => if a = b then pathLe as bs else decide (a ≤ b)

/-- Insertion of a path into a `pathLe`-sorted list. -/
def insertPath (p : Path) : List Path → List Path
  | [] => [p]
  | q :: rest => if pathLe p q then p :: q :: rest else q :: insertPath p rest

/-- `image_files.sort()`: `pathLe` is a total order (antisymmetric), so the
sorted rearrangement is unique and insertion sort computes exactly the list
Rust's stable sort produces. -/
def sortPaths (ps : List Path) : List Path := ps.foldr insertPath []

/-- `create_webm_from_images`: list the event directory (escalating on
failure), keep `.jpg` paths, sort, estimate the rate (default `24.0`),
invoke the encoder, and report the outcome without escalating it. -/
def create_webm_from_images (w : World) (event_id_dir output_dir : Path) :
    List Event × Except Unit Unit :=
  match w.readDir event_id_dir with
  | .error e => ([], .error e)
  | .ok entries =>
    let image_files := sortPaths (jpgFilter (entryPaths event_id_dir entries))
    let framerate := (calculate_framerate w.metaOf image_files).getD (.fin 24)
    let images_pattern := event_id_dir ++ ["%d-capture.jpg"]
    let output_file := output_dir ++ [((fileName event_id_dir).getD "") ++ "-video.webm"]
    let args := ["-framerate", showRate framerate, "-i", renderPath images_pattern,
      "-c:v", "libvpx-vp9", "-pix_fmt", "yuv420p", renderPath output_file]
    match w.runFfmpeg args with
    | .error e => ([.invoke args], .error e)
    | .ok true =>
      ([.invoke args, .stdout ("Created video: " ++ renderPath output_file)], .ok ())
    | .ok false =>
      ([.invoke args, .stderr ("Failed to create video for " ++ renderPath event_id_dir)], .ok ())

/-- The walker's per-entry test:
`path.is_dir() && path.file_name().and_then(to_str).map_or(false, |n| n.chars().all(char::is_numeric))`
(`to_str` cannot fail in this model, where names are `String`s). -/
def eventDirCheck (w : World) (path : Path) : Bool :=
  w.isDir path && ((fileName path).map (fun n => n.data.all charIsNumeric)).getD false

/-- The loop body of `process_event_directories`: `let entry = entry?;`
escalates a failed entry; matching directories run the builder, whose
escalated failures abort the remaining entries. -/
def processEntries (w : World) (base_dir videos_dir : Path) :
    List (Except Unit String) → List Event × Except Unit Unit
  | [] => ([], .ok ())
  | .error e :: _ => ([], .error e)
  | .ok name :: rest =>
    let path := base_dir ++ [name]
    if eventDirCheck w path then
      match create_webm_from_images w path videos_dir with
      | (evs, .error e) => (evs, .error e)
      | (evs, .ok _) =>
        let r := processEntries w base_dir videos_dir rest
        (evs ++ r.1, r.2)
    else processEntries w base_dir videos_dir rest

/-- `process_event_directories`: ensure `base/videos` exists, then walk the
base directory's entries. -/
def process_event_directories (w : World) (base_dir : Path) :
    List Event × Except Unit Unit :=
  let videos_dir := base_dir ++ ["videos"]
  match w.createDirAll videos_dir with
  | .error e => ([], .error e)
  | .ok _ =>
    match w.readDir base_dir with
    | .error e => ([], .error e)
    | .ok entries => processEntries w base_dir videos_dir entries

/-! Helper lemmas shared by the claim theorems. -/

theorem renderPath_append (p : Path) (s : String) (h : p ≠ []) :
    renderPath (p ++ [s]) = renderPath p ++ "/" ++ s := by
  induction p with
  | nil => exact absurd rfl h
  | cons a rest ih =>
    cases rest with
    | nil => rfl
    | cons b t =>
      have h2 : renderPath ((b :: t) ++ [s]) = renderPath (b :: t) ++ "/" ++ s :=
        ih (List.cons_ne_nil b t)
      show a ++ "/" ++ renderPath ((b :: t) ++ [s]) = a ++ "/" ++ renderPath (b :: t) ++ "/" ++ s
      rw [h2]
      simp [String.append_assoc]

theorem fileName_concat (p : Path) (s : String) : fileName (p ++ [s]) = some s := by
  simp [fileName]

/-- Whenever the event directory lists successfully, the builder performs
exactly one encoder invocation, with the fixed argument list. -/
theorem create_webm_invokes (w : World) (e o : Path)
    (entries : List (Except Unit String)) (hrd : w.readDir e = .ok entries) :
    (create_webm_from_images w e o).1.filterMap Event.invokeArgs =
      [["-framerate",
        showRate ((calculate_framerate w.metaOf
          (sortPaths (jpgFilter (entryPaths e entries)))).getD (.fin 24)),
        "-i", renderPath (e ++ ["%d-capture.jpg"]), "-c:v", "libvpx-vp9",
        "-pix_fmt", "yuv420p",
        renderPath (o ++ [((fileName e).getD "") ++ "-video.webm"])]] := by
  unfold create_webm_from_images
  rw [hrd]
  split <;> rename_i heq
  · cases heq
  · cases heq
    dsimp only
    split <;> simp [Event.invokeArgs, List.filterMap]

/-- When every file's timestamp resolves, the loop of `calculate_framerate`
computes exactly the consecutive deltas of the resolved timestamps. -/
theorem timeDiffs_resolved (metaOf : Path → Except Unit Metadata) (ts : Path → ℚ) :
    ∀ files : List Path, (∀ p ∈ files, resolvedSecs metaOf p = some (ts p)) →
      timeDiffs metaOf files = some (consecDeltas (files.map ts))
  | [], _ => rfl
  | [_], _ => rfl
  | p :: q :: rest, h => by
    have hp := h p (List.mem_cons_self p (q :: rest))
    have hq := h q (List.mem_cons_of_mem p (List.mem_cons_self q rest))
    have ih := timeDiffs_resolved metaOf ts (q :: rest)
      (fun x hx => h x (List.mem_cons_of_mem p hx))
    simp [timeDiffs, hp, hq, ih, consecDeltas]

/-- A single failed timestamp lookup makes the whole loop fail. -/
theorem timeDiffs_fail (metaOf : Path → Except Unit Metadata) (p : Path)
    (hfail : resolvedSecs metaOf p = none) :
    ∀ a b rest, p ∈ a :: b :: rest → timeDiffs metaOf (a :: b :: rest) = none := by
  intro a b rest
  induction rest generalizing a b with
  | nil =>
    intro hp
    rcases List.mem_cons.mp hp with h | h
    · subst h; simp [timeDiffs, hfail]
    · have : p = b := by simpa using h
      subst this
      cases hA : resolvedSecs metaOf a <;> simp [timeDiffs, hA, hfail]
  | cons c t ih =>
    intro hp
    rcases List.mem_cons.mp hp with h | h
    · subst h; simp [timeDiffs, hfail]
    · have hrec : timeDiffs metaOf (b :: c :: t) = none := ih b c h
      rw [timeDiffs, hrec]
      cases hA : resolvedSecs metaOf a <;>
        cases hB : resolvedSecs metaOf b <;> simp

/-- A single failed timestamp lookup makes the whole estimation fail. -/
theorem calculate_framerate_fail (metaOf : Path → Except Unit Metadata)
    (files : List Path) (p : Path) (hlen : 2 ≤ files.length) (hp : p ∈ files)
    (hfail : resolvedSecs metaOf p = none) :
    calculate_framerate metaOf files = none := by
  match files, hlen, hp with
  | a :: b :: rest, _, hp =>
    have h := timeDiffs_fail metaOf p hfail a b rest hp
    simp [calculate_framerate, h]

theorem consecDeltas_length : ∀ l : List ℚ, (consecDeltas l).length = l.length - 1
  | [] => rfl
  | [_] => rfl
  | a :: b :: rest => by
    have := consecDeltas_length (b :: rest)
    simp only [consecDeltas, List.length_cons] at *
    omega

/-- On success of all lookups, `calculate_framerate` is the reciprocal of the
mean of the consecutive deltas. -/
theorem calculate_framerate_resolved (metaOf : Path → Except Unit Metadata)
    (files : List Path) (ts : Path → ℚ) (hlen : 2 ≤ files.length)
    (hres : ∀ p ∈ files, resolvedSecs metaOf p = some (ts p)) :
    calculate_framerate metaOf files =
      some (recipF ((consecDeltas (files.map ts)).sum /
        ((consecDeltas (files.map ts)).length : ℚ))) := by
  have htd := timeDiffs_resolved metaOf ts files hres
  match files, hlen with
  | a :: b :: rest, _ =>
    simp only [calculate_framerate] at *
    rw [htd]
    simp

/-- Listing of the concrete event directory `b/07`: two frame files. -/
def entriesA : List (Except Unit String) := [.ok "1-capture.jpg", .ok "2-capture.jpg"]

/-- A concrete filesystem: base `b` holds event directory `07` with two
frames whose creation times are two seconds apart; the encoder succeeds. -/
def wA : World where
  readDir := fun p =>
    if p = ["b"] then .ok [.ok "07"]
    else if p = ["b", "07"] then .ok entriesA
    else .error ()
  metaOf := fun p =>
    if p = ["b", "07", "1-capture.jpg"] then .ok ⟨.ok 10, .error ()⟩
    else if p = ["b", "07", "2-capture.jpg"] then .ok ⟨.ok 12, .error ()⟩
    else .error ()
  createDirAll := fun _ => .ok ()
  isDir := fun p => p = ["b", "07"]
  runFfmpeg := fun _ => .ok true

/-- A filesystem whose directories list as empty, whose metadata reads fail,
and whose encoder launches but exits unsuccessfully. -/
def wFail : World where
  readDir := fun _ => .ok []
  metaOf := fun _ => .error ()
  createDirAll := fun _ => .ok ()
  isDir := fun _ => false
  runFfmpeg := fun _ => .ok false

theorem showRate_fin24 : showRate (.fin 24) = "24" := by decide

/-! Claim theorems. -/

/-- C1: whenever the event directory lists successfully, the Event Video
Builder performs exactly one encoder invocation, whose argument list is, in
order: `-framerate` and the rendered estimated-or-default rate; `-i` and the
fixed input pattern `<event_dir>/%d-capture.jpg` (a template independent of
the entries the listing step discovered); `-c:v libvpx-vp9`;
`-pix_fmt yuv420p`; and the output path `<output_dir>/<event-id>-video.webm`
where `<event-id>` is the event directory's final name component. -/
theorem c1_encoder_argument_list (w : World) (event_id_dir output_dir : Path)
    (entries : List (Except Unit String)) (name : String)
    (hrd : w.readDir event_id_dir = .ok entries)
    (hname : fileName event_id_dir = some name)
    (ho : output_dir ≠ []) :
    (create_webm_from_images w event_id_dir output_dir).1.filterMap Event.invokeArgs =
      [["-framerate",
        showRate ((calculate_framerate w.metaOf
          (sortPaths (jpgFilter (entryPaths event_id_dir entries)))).getD (.fin 24)),
        "-i", renderPath event_id_dir ++ "/" ++ "%d-capture.jpg",
        "-c:v", "libvpx-vp9", "-pix_fmt", "yuv420p",
        renderPath output_dir ++ "/" ++ (name ++ "-video.webm")]] := by
  have he : event_id_dir ≠ [] := by
    intro hh
    subst hh
    simp [fileName] at hname
  rw [create_webm_invokes w event_id_dir output_dir entries hrd,
    renderPath_append event_id_dir _ he, renderPath_append output_dir _ ho, hname]
  simp

/-- C1 witness: the theorem instantiated with the concrete world `wA`. -/
theorem c1_encoder_argument_list_witness :
    wA.readDir ["b", "07"] = .ok entriesA ∧
    fileName ["b", "07"] = some "07" ∧
    (["b", "videos"] : Path) ≠ [] ∧
    (create_webm_from_images wA ["b", "07"] ["b", "videos"]).1.filterMap Event.invokeArgs =
      [["-framerate", "1/2", "-i", "b/07/%d-capture.jpg",
        "-c:v", "libvpx-vp9", "-pix_fmt", "yuv420p", "b/videos/07-video.webm"]] :=
  ⟨rfl, rfl, by decide, by
    rw [c1_encoder_argument_list wA ["b", "07"] ["b", "videos"] entriesA "07" rfl rfl
      (by decide)]
    with_unfolding_all decide⟩

/-- C3: with fewer than two retained frames the Frame-Rate Estimator returns
no value (not an error), and the Event Video Builder then invokes the
encoder with the fixed default rate, rendered `"24"`. -/
theorem c3_default_rate (w : World) (event_id_dir output_dir : Path)
    (entries : List (Except Unit String))
    (hrd : w.readDir event_id_dir = .ok entries)
    (hlen : (sortPaths (jpgFilter (entryPaths event_id_dir entries))).length < 2) :
    calculate_framerate w.metaOf (sortPaths (jpgFilter (entryPaths event_id_dir entries))) =
      none ∧
    (create_webm_from_images w event_id_dir output_dir).1.filterMap Event.invokeArgs =
      [["-framerate", "24", "-i", renderPath (event_id_dir ++ ["%d-capture.jpg"]),
        "-c:v", "libvpx-vp9", "-pix_fmt", "yuv420p",
        renderPath (output_dir ++ [((fileName event_id_dir).getD "") ++ "-video.webm"])]] := by
  have h1 : calculate_framerate w.metaOf
      (sortPaths (jpgFilter (entryPaths event_id_dir entries))) = none := by
    simp [calculate_framerate, hlen]
  refine ⟨h1, ?_⟩
  rw [create_webm_invokes w event_id_dir output_dir entries hrd, h1]
  simp [showRate_fin24]

/-- C3 witness: an event directory with zero frames, in the world `wFail`. -/
theorem c3_default_rate_witness :
    calculate_framerate wFail.metaOf (sortPaths (jpgFilter (entryPaths ["e"] []))) = none ∧
    (create_webm_from_images wFail ["e"] ["o"]).1.filterMap Event.invokeArgs =
      [["-framerate", "24", "-i", "e/%d-capture.jpg", "-c:v", "libvpx-vp9",
        "-pix_fmt", "yuv420p", "o/e-video.webm"]] :=
  ⟨(c3_default_rate wFail ["e"] ["o"] [] rfl (by decide)).1, by
    rw [(c3_default_rate wFail ["e"] ["o"] [] rfl (by decide)).2]
    decide⟩

/-- Creation times 3, 5, 7 for three frames: a constant delta of 2 seconds. -/
def metaB : Path → Except Unit Metadata := fun p =>
  if p = ["1"] then .ok ⟨.ok 3, .error ()⟩
  else if p = ["2"] then .ok ⟨.ok 5, .error ()⟩
  else if p = ["3"] then .ok ⟨.ok 7, .error ()⟩
  else .error ()

/-- Timestamps of `metaB` as a pure function. -/
def tsB : Path → ℚ := fun p => if p = ["1"] then 3 else if p = ["2"] then 5 else 7

/-- Metadata readable for frame `1` only. -/
def metaF : Path → Except Unit Metadata := fun p =>
  if p = ["1"] then .ok ⟨.ok 3, .error ()⟩ else .error ()

/-- Two frames with identical creation times. -/
def metaZ : Path → Except Unit Metadata := fun p =>
  if p = ["1"] ∨ p = ["2"] then .ok ⟨.ok 5, .error ()⟩ else .error ()

/-- Two frames whose creation times decrease. -/
def metaN : Path → Except Unit Metadata := fun p =>
  if p = ["1"] then .ok ⟨.ok 5, .error ()⟩
  else if p = ["2"] then .ok ⟨.ok 3, .error ()⟩ else .error ()

/-- Frame `1` created one second before the Unix epoch. -/
def metaE : Path → Except Unit Metadata := fun p =>
  if p = ["1"] then .ok ⟨.ok (-1), .error ()⟩
  else .ok ⟨.ok 4, .error ()⟩

/-- C4: when every frame's timestamp resolves, the Frame-Rate Estimator
returns the reciprocal of the arithmetic mean of the consecutive (current
minus previous) deltas taken in the given order; in particular, for a
constant delta `d > 0` the returned rate is exactly `1 / d`. -/
theorem c4_mean_reciprocal (metaOf : Path → Except Unit Metadata)
    (files : List Path) (ts : Path → ℚ) (hlen : 2 ≤ files.length)
    (hres : ∀ p ∈ files, resolvedSecs metaOf p = some (ts p)) :
    calculate_framerate metaOf files =
      some (recipF ((consecDeltas (files.map ts)).sum /
        ((consecDeltas (files.map ts)).length : ℚ))) ∧
    (∀ d : ℚ, 0 < d → consecDeltas (files.map ts) = List.replicate (files.length - 1) d →
      calculate_framerate metaOf files = some (.fin (1 / d))) := by
  have hmain := calculate_framerate_resolved metaOf files ts hlen hres
  refine ⟨hmain, fun d hd hrep => ?_⟩
  rw [hmain, hrep]
  have hn : (files.length - 1 : ℕ) ≠ 0 := by omega
  have hsum : (List.replicate (files.length - 1) d).sum = ((files.length - 1 : ℕ) : ℚ) * d := by
    rw [List.sum_replicate, nsmul_eq_mul]
  have hlenr : (((List.replicate (files.length - 1) d).length : ℕ) : ℚ) =
      ((files.length - 1 : ℕ) : ℚ) := by
    simp
  have hq : ((files.length - 1 : ℕ) : ℚ) ≠ 0 := by exact_mod_cast hn
  rw [hsum, hlenr, mul_comm, mul_div_assoc, div_self hq, mul_one]
  simp [recipF, hd.ne']

/-- C4 witness: three frames with creation times 3, 5, 7 give rate `1/2`. -/
theorem c4_mean_reciprocal_witness :
    calculate_framerate metaB [["1"], ["2"], ["3"]] = some (.fin (1 / 2)) :=
  (c4_mean_reciprocal metaB [["1"], ["2"], ["3"]] tsB (by decide)
    (by with_unfolding_all decide)).2 2 (by norm_num) (by with_unfolding_all decide)

/-- C5: with at least two frames, failure of any single frame's timestamp
lookup (metadata read, time resolution, or epoch conversion — every frame
belongs to a consecutive pair) makes the whole estimation report nothing;
no partial result from the successful pairs is produced. -/
theorem c5_lookup_failure_propagates (metaOf : Path → Except Unit Metadata)
    (files : List Path) (p : Path) (hlen : 2 ≤ files.length) (hp : p ∈ files)
    (hfail : resolvedSecs metaOf p = none) :
    calculate_framerate metaOf files = none :=
  calculate_framerate_fail metaOf files p hlen hp hfail

/-- C5 witness: the second frame's metadata read fails. -/
theorem c5_lookup_failure_propagates_witness :
    calculate_framerate metaF [["1"], ["2"]] = none :=
  c5_lookup_failure_propagates metaF [["1"], ["2"]] ["2"] (by decide) (by simp)
    (by with_unfolding_all decide)

/-- C6: the closing division of the estimator is total: a zero mean delta
returns the infinite rate (no crash, no failure), and a negative mean delta
returns a negative finite rate; nothing is validated or clamped beyond the
division itself. -/
theorem c6_degenerate_mean (metaOf : Path → Except Unit Metadata)
    (files : List Path) (ts : Path → ℚ) (hlen : 2 ≤ files.length)
    (hres : ∀ p ∈ files, resolvedSecs metaOf p = some (ts p)) :
    ((consecDeltas (files.map ts)).sum = 0 →
      calculate_framerate metaOf files = some .posInf) ∧
    (∀ avg : ℚ,
      avg = (consecDeltas (files.map ts)).sum / ((consecDeltas (files.map ts)).length : ℚ) →
      avg < 0 →
      calculate_framerate metaOf files = some (.fin (1 / avg)) ∧ 1 / avg < 0) := by
  have hmain := calculate_framerate_resolved metaOf files ts hlen hres
  constructor
  · intro h0
    rw [hmain, h0]
    simp [recipF]
  · intro avg havg hneg
    rw [hmain, ← havg]
    exact ⟨by simp [recipF, hneg.ne], one_div_neg.mpr hneg⟩

/-- C6 witness: identical timestamps give `+inf`; decreasing timestamps two
seconds apart give the negative rate `1 / (-2)`. -/
theorem c6_degenerate_mean_witness :
    calculate_framerate metaZ [["1"], ["2"]] = some .posInf ∧
    calculate_framerate metaN [["1"], ["2"]] = some (.fin (1 / (-2 : ℚ))) ∧
    (1 / (-2 : ℚ)) < 0 :=
  ⟨(c6_degenerate_mean metaZ [["1"], ["2"]] (fun _ => 5) (by decide)
      (by with_unfolding_all decide)).1 (by with_unfolding_all decide),
   ((c6_degenerate_mean metaN [["1"], ["2"]] (fun p => if p = ["1"] then 5 else 3) (by decide)
      (by with_unfolding_all decide)).2 (-2) (by with_unfolding_all decide) (by norm_num)).1,
   by norm_num⟩

/-- C9: a frame whose resolved time point lies strictly before the Unix
epoch makes the seconds-since-epoch conversion fail, and that failure is
treated like any other lookup failure: the whole estimation reports
nothing. -/
theorem c9_pre_epoch_fails (metaOf : Path → Except Unit Metadata)
    (files : List Path) (p : Path) (m : Metadata) (t : ℚ)
    (hlen : 2 ≤ files.length) (hp : p ∈ files)
    (hm : metaOf p = .ok m) (ht : get_file_timestamp m = some t) (hneg : t < 0) :
    calculate_framerate metaOf files = none := by
  have hfail : resolvedSecs metaOf p = none := by
    simp [resolvedSecs, hm, Except.toOption, ht, hneg]
  exact calculate_framerate_fail metaOf files p hlen hp hfail

/-- C9 witness: a frame created one second before the epoch. -/
theorem c9_pre_epoch_fails_witness :
    calculate_framerate metaE [["1"], ["2"]] = none :=
  c9_pre_epoch_fails metaE [["1"], ["2"]] ["1"] ⟨.ok (-1), .error ()⟩ (-1) (by decide)
    (by simp) (by simp [metaE]) rfl (by norm_num)

/-- Once processing of a prefix of the base directory's entries aborts with
an error, the remaining entries contribute nothing: the log and the outcome
are those of the failing prefix alone. -/
theorem processEntries_error_append (w : World) (base vdir : Path)
    (l1 l2 : List (Except Unit String)) :
    ∀ evs, processEntries w base vdir l1 = (evs, .error ()) →
      processEntries w base vdir (l1 ++ l2) = (evs, .error ()) := by
  induction l1 with
  | nil =>
    intro evs h
    simp [processEntries] at h
  | cons head rest ih =>
    intro evs h
    cases head with
    | error e =>
      cases e
      simp only [processEntries] at h
      simp only [List.cons_append, processEntries]
      exact h
    | ok name =>
      by_cases hc : eventDirCheck w (base ++ [name])
      · simp only [List.cons_append, processEntries, if_pos hc] at h ⊢
        rcases hcw : create_webm_from_images w (base ++ [name]) vdir with ⟨evs1, r⟩
        rw [hcw] at h
        cases r with
        | error e =>
          cases e
          dsimp only at h ⊢
          exact h
        | ok u =>
          dsimp only at h ⊢
          simp only [List.append_eq] at h ⊢
          have h2 : (processEntries w base vdir rest).2 = .error () := by
            have := congrArg Prod.snd h
            simpa using this
          have h1 : evs1 ++ (processEntries w base vdir rest).1 = evs := by
            have := congrArg Prod.fst h
            simpa using this
          have hsplit : processEntries w base vdir rest =
              ((processEntries w base vdir rest).1, .error ()) := by
            rw [← h2]
          have hrec := ih (processEntries w base vdir rest).1 hsplit
          rw [hrec, h1]
      · simp only [List.cons_append, processEntries, if_neg hc] at h ⊢
        exact ih evs h

/-- C7: when the encoder subprocess exits unsuccessfully, the Event Video
Builder puts a failure notice naming the event directory on the error
stream and still returns success to its caller — no error escalates, so the
Directory Walker goes on to the next entry. -/
theorem c7_encoder_failure_not_escalated (w : World) (event_id_dir output_dir : Path)
    (entries : List (Except Unit String))
    (hrd : w.readDir event_id_dir = .ok entries)
    (hrun : ∀ args, w.runFfmpeg args = .ok false) :
    (create_webm_from_images w event_id_dir output_dir).2 = .ok () ∧
    Event.stderr ("Failed to create video for " ++ renderPath event_id_dir) ∈
      (create_webm_from_images w event_id_dir output_dir).1 := by
  unfold create_webm_from_images
  rw [hrd]
  dsimp only
  rw [hrun]
  simp

/-- C7 witness: in `wFail` the encoder exits unsuccessfully; the builder
still returns success and the error stream names the event directory. -/
theorem c7_encoder_failure_not_escalated_witness :
    (create_webm_from_images wFail ["e"] ["o"]).2 = .ok () ∧
    Event.stderr ("Failed to create video for " ++ renderPath ["e"]) ∈
      (create_webm_from_images wFail ["e"] ["o"]).1 :=
  c7_encoder_failure_not_escalated wFail ["e"] ["o"] [] rfl (fun _ => rfl)

/-- C8: escalated failures abort the whole run: a failed creation of the
output directory or a failed listing of the base directory stops
`process_event_directories` at once with an empty log; a failed listing of
an event directory or a failed encoder launch escalates out of the builder;
and once a prefix of the entries has aborted, appending further entries
changes nothing — no subsequent event directory is processed. -/
theorem c8_escalated_failures_abort (w : World)
    (base_dir event_id_dir output_dir videos_dir : Path)
    (entries l1 l2 : List (Except Unit String)) (evs : List Event) :
    (w.createDirAll (base_dir ++ ["videos"]) = .error () →
      process_event_directories w base_dir = ([], .error ())) ∧
    (w.createDirAll (base_dir ++ ["videos"]) = .ok () → w.readDir base_dir = .error () →
      process_event_directories w base_dir = ([], .error ())) ∧
    (w.readDir event_id_dir = .error () →
      create_webm_from_images w event_id_dir output_dir = ([], .error ())) ∧
    (w.readDir event_id_dir = .ok entries → (∀ args, w.runFfmpeg args = .error ()) →
      (create_webm_from_images w event_id_dir output_dir).2 = .error ()) ∧
    (processEntries w base_dir videos_dir l1 = (evs, .error ()) →
      processEntries w base_dir videos_dir (l1 ++ l2) = (evs, .error ())) := by
  refine ⟨?_, ?_, ?_, ?_, ?_⟩
  · intro h
    simp only [process_event_directories, h]
  · intro h1 h2
    simp only [process_event_directories, h1, h2]
  · intro h
    simp only [create_webm_from_images, h]
  · intro hrd hrun
    simp only [create_webm_from_images, hrd, hrun]
  · exact processEntries_error_append w base_dir videos_dir l1 l2 evs

/-- A world whose output-directory creation fails. -/
def wCD : World where
  readDir := fun _ => .ok []
  metaOf := fun _ => .error ()
  createDirAll := fun _ => .error ()
  isDir := fun _ => false
  runFfmpeg := fun _ => .ok true

/-- A world whose directory listings fail. -/
def wRD : World where
  readDir := fun _ => .error ()
  metaOf := fun _ => .error ()
  createDirAll := fun _ => .ok ()
  isDir := fun _ => false
  runFfmpeg := fun _ => .ok true

/-- A world whose encoder fails to launch. -/
def wLaunch : World where
  readDir := fun _ => .ok []
  metaOf := fun _ => .error ()
  createDirAll := fun _ => .ok ()
  isDir := fun _ => false
  runFfmpeg := fun _ => .error ()

/-- C8 witness: the theorem's five parts at concrete failing worlds. -/
theorem c8_escalated_failures_abort_witness :
    process_event_directories wCD ["b"] = ([], .error ()) ∧
    process_event_directories wRD ["b"] = ([], .error ()) ∧
    create_webm_from_images wRD ["b", "07"] ["b", "videos"] = ([], .error ()) ∧
    (create_webm_from_images wLaunch ["b", "07"] ["b", "videos"]).2 = .error () ∧
    processEntries wLaunch ["b"] ["b", "videos"] ([.error ()] ++ [.ok "07"]) =
      ([], .error ()) :=
  ⟨(c8_escalated_failures_abort wCD ["b"] [] [] [] [] [] [] []).1 rfl,
   (c8_escalated_failures_abort wRD ["b"] [] [] [] [] [] [] []).2.1 rfl rfl,
   (c8_escalated_failures_abort wRD [] ["b", "07"] ["b", "videos"] [] [] [] [] []).2.2.1 rfl,
   (c8_escalated_failures_abort wLaunch [] ["b", "07"] ["b", "videos"] [] [] [] []
     []).2.2.2.1 rfl (fun _ => rfl),
   (c8_escalated_failures_abort wLaunch ["b"] [] [] ["b", "videos"] [] [.error ()]
     [.ok "07"] []).2.2.2.2 rfl⟩

/-- C10: a listed entry `dir/name` is retained as a frame exactly when the
entry listed successfully and the Rust extension of its name is exactly
`jpg`; every retained path is an immediate entry. The comparison is
case-sensitive — `a.JPG` has extension `JPG`, not `jpg`, so it is
excluded — and only the path is consulted: the builder's result does not
depend on the directory bit at all, so a subdirectory named `*.jpg` is
retained. -/
theorem c10_jpg_filter (dir : Path) (entries : List (Except Unit String)) (name : String) :
    ((dir ++ [name]) ∈ jpgFilter (entryPaths dir entries) ↔
      Except.ok name ∈ entries ∧ rustExtension name = some "jpg") ∧
    (∀ p ∈ jpgFilter (entryPaths dir entries), ∃ n, Except.ok n ∈ entries ∧ p = dir ++ [n]) ∧
    rustExtension "a.JPG" = some "JPG" ∧
    (∀ rd mo cda rf d1 d2 e o,
      create_webm_from_images ⟨rd, mo, cda, d1, rf⟩ e o =
        create_webm_from_images ⟨rd, mo, cda, d2, rf⟩ e o) := by
  have hmem : ∀ x : String, x ∈ List.filterMap Except.toOption entries ↔
      Except.ok x ∈ entries := by
    intro x
    rw [List.mem_filterMap]
    constructor
    · rintro ⟨ex, he, hx⟩
      cases ex with
      | ok v =>
        simp only [Except.toOption, Option.some.injEq] at hx
        subst hx
        exact he
      | error v => simp [Except.toOption] at hx
    · intro h
      exact ⟨.ok x, h, rfl⟩
  refine ⟨?_, ?_, by decide, ?_⟩
  · rw [jpgFilter, List.mem_filter]
    simp only [entryPaths, List.mem_map, pathExtension, fileName_concat, Option.some_bind,
      beq_iff_eq]
    constructor
    · rintro ⟨⟨x, hx, hax⟩, hext⟩
      have hxn : x = name := by
        have := List.append_cancel_left hax
        simpa using this
      subst hxn
      exact ⟨(hmem x).mp hx, hext⟩
    · rintro ⟨hin, hext⟩
      exact ⟨⟨name, (hmem name).mpr hin, rfl⟩, hext⟩
  · intro p hp
    rw [jpgFilter, List.mem_filter] at hp
    obtain ⟨hp1, _⟩ := hp
    simp only [entryPaths, List.mem_map] at hp1
    obtain ⟨x, hx, rfl⟩ := hp1
    exact ⟨x, (hmem x).mp hx, rfl⟩
  · intro rd mo cda rf d1 d2 e o
    rfl

/-- C10 witness: with entries `a.JPG` and `a.jpg`, only `dir/a.jpg` is
retained, and the uppercase name's extension is `JPG`. -/
theorem c10_jpg_filter_witness :
    (["d", "a.jpg"] ∈ jpgFilter (entryPaths ["d"] [.ok "a.JPG", .ok "a.jpg"])) ∧
    rustExtension "a.JPG" = some "JPG" :=
  ⟨(c10_jpg_filter ["d"] [.ok "a.JPG", .ok "a.jpg"] "a.jpg").1.mpr ⟨by simp, by decide⟩,
   (c10_jpg_filter ["d"] [] "").2.2.1⟩

end JpgToWebm
